/-
Verification of the message transport and correlation layer of godet
(src/godet.go): the correlation registry (`responses` map and `reqid`
counter inside `RemoteDebugger`), the call path `sendRequest`, the
dispatch loop `readMessages`, and `Close`.

Shallow embedding conventions:
* `json.RawMessage` payloads are opaque and embedded as `String`.
* A Go buffered channel of capacity 1 is embedded as its buffer, an
  `Option RawMessage` (`none` = empty buffer).  A channel *reference*
  may be nil in Go, so the map value type is `Option` of that.
* The Go `map[int]chan json.RawMessage` is embedded as an association
  list that distinguishes key presence from a nil value, because Go's
  `m[k] = nil` keeps the key while `m[k]` on a missing key also yields
  nil.
* `json.Unmarshal` and the websocket are library boundaries: decoding
  is a parameter of the dispatch loop, and read/write outcomes are
  inputs to the embedded functions.
-/
import Mathlib

set_option autoImplicit false

namespace Godet

/-- Opaque embedding of `json.RawMessage`. -/
abbrev RawMessage := String

/-- The buffer of a Go channel of capacity 1: `none` means empty. -/
abbrev Chan1 := Option RawMessage

/-- A Go channel reference stored in the map: `none` is a nil channel,
`some buf` is a live channel whose buffer is `buf`. -/
abbrev ChanRef := Option Chan1

/-- The `responses map[int]chan json.RawMessage` field, as an association
list from request id to channel reference.  Key presence is kept separate
from the nil value so that `responses[reqid] = nil` (godet.go line 167),
which keeps the key, is distinguishable from key deletion. -/
abbrev ResponsesMap := List (Nat × ChanRef)

/-- Go map indexing `m[id]`: the first entry with the key, and the zero
value (nil channel reference) when the key is absent. -/
def mapLookup : ResponsesMap → Nat → ChanRef
  | [], _ => none
  | (k, v) :: rest, id => if k = id then v else mapLookup rest id

/-- Whether the key is present in the map at all (Go `_, ok := m[id]`;
the code never uses this form, but it is what key removal would change). -/
def mapHasKey : ResponsesMap → Nat → Bool
  | [], _ => false
  | (k, _) :: rest, id => if k = id then true else mapHasKey rest id

/-- Go map assignment `m[id] = v`: update the entry if the key is
present, otherwise add it. -/
def mapInsert : ResponsesMap → Nat → ChanRef → ResponsesMap
  | [], id, v => [(id, v)]
  | (k, w) :: rest, id, v =>
      if k = id then (k, v) :: rest else (k, w) :: mapInsert rest id v

/-- The parts of `RemoteDebugger` (godet.go lines 82-90) that the
transport/correlation core mutates: the request id counter, the closed
flag and the responses map.  `r_lock` is represented by the atomicity of
each embedded operation; the http and ws handles are library boundaries. -/
structure RemoteDebugger where
  reqid : Nat
  closed : Bool
  responses : ResponsesMap
  deriving Repr, DecidableEq

/-- The fresh connection state built by `Connect` (godet.go lines 96-99):
zero request counter, not closed, empty responses map. -/
def connectState : RemoteDebugger :=
  { reqid := 0, closed := false, responses := [] }

/-- The registration step of `sendRequest` (godet.go lines 141-145): under
`r_lock`, read the current counter as the new id, store a fresh buffered
channel of capacity 1 under it, and increment the counter.  Returns the
allocated id and the new state. -/
def register (r : RemoteDebugger) : Nat × RemoteDebugger :=
  (r.reqid,
   { r with
       responses := mapInsert r.responses r.reqid (some none),
       reqid := r.reqid + 1 })

/-- The reply-routing step of `readMessages` (godet.go lines 209-215):
look up the channel for the reply's id under `r_lock`; if it is nil
(absent key or cleared entry) the payload is dropped, otherwise the
payload is sent into the channel.  A send on a full capacity-1 channel
blocks, so the buffer keeps the first payload; the state is unchanged in
that case. -/
def resolve (r : RemoteDebugger) (id : Nat) (payload : RawMessage) : RemoteDebugger :=
  match mapLookup r.responses id with
  | none => r
  | some none =>
      { r with responses := mapInsert r.responses id (some (some payload)) }
  | some (some _) => r

/-- The receive-and-clear step of `sendRequest` (godet.go lines 165-168):
`res := <-remote.responses[reqid]` followed, under `r_lock`, by
`remote.responses[reqid] = nil`.  Returns `none` when the caller is still
blocked: the channel is nil (blocks forever) or its buffer is empty
(blocks until `resolve` delivers). -/
def consume (r : RemoteDebugger) (id : Nat) : Option (RawMessage × RemoteDebugger) :=
  match mapLookup r.responses id with
  | some (some p) =>
      some (p, { r with responses := mapInsert r.responses id none })
  | _ => none

/-- `Close` (godet.go lines 125-128): set the closed flag; the websocket
close itself is a library call.  The responses map is not touched. -/
def closeDebugger (r : RemoteDebugger) : RemoteDebugger :=
  { r with closed := true }

/-! Basic lemmas about the Go-map embedding. -/

theorem mapLookup_mapInsert_self (m : ResponsesMap) (k : Nat) (v : ChanRef) :
    mapLookup (mapInsert m k v) k = v := by
  induction m with
  | nil => simp [mapInsert, mapLookup]
  | cons kv rest ih =>
      obtain ⟨k', w⟩ := kv
      by_cases h : k' = k
      · simp [mapInsert, mapLookup, h]
      · simp [mapInsert, mapLookup, h, ih]

theorem mapLookup_mapInsert_ne (m : ResponsesMap) (k i : Nat) (v : ChanRef)
    (h : k ≠ i) : mapLookup (mapInsert m k v) i = mapLookup m i := by
  induction m with
  | nil => simp [mapInsert, mapLookup, h]
  | cons kv rest ih =>
      obtain ⟨k', w⟩ := kv
      by_cases hk : k' = k
      · subst hk
        simp [mapInsert, mapLookup, h]
      · by_cases hi : k' = i
        · simp [mapInsert, mapLookup, hk, hi, Ne.symm h]
        · simp [mapInsert, mapLookup, hk, hi, ih]

theorem mapHasKey_mapInsert_self (m : ResponsesMap) (k : Nat) (v : ChanRef) :
    mapHasKey (mapInsert m k v) k = true := by
  induction m with
  | nil => simp [mapInsert, mapHasKey]
  | cons kv rest ih =>
      obtain ⟨k', w⟩ := kv
      by_cases h : k' = k
      · simp [mapInsert, mapHasKey, h]
      · simp [mapInsert, mapHasKey, h, ih]

theorem mapHasKey_mapInsert_ne (m : ResponsesMap) (k i : Nat) (v : ChanRef)
    (h : k ≠ i) : mapHasKey (mapInsert m k v) i = mapHasKey m i := by
  induction m with
  | nil => simp [mapInsert, mapHasKey, h]
  | cons kv rest ih =>
      obtain ⟨k', w⟩ := kv
      by_cases hk : k' = k
      · subst hk
        simp [mapInsert, mapHasKey, h]
      · by_cases hi : k' = i
        · simp [mapInsert, mapHasKey, hk, hi, Ne.symm h]
        · simp [mapInsert, mapHasKey, hk, hi, ih]

theorem mapHasKey_of_mapLookup_some (m : ResponsesMap) (i : Nat) (v : Chan1)
    (h : mapLookup m i = some v) : mapHasKey m i = true := by
  induction m with
  | nil => simp [mapLookup] at h
  | cons kv rest ih =>
      obtain ⟨k', w⟩ := kv
      by_cases hk : k' = i
      · simp [mapHasKey, hk]
      · simp [mapLookup, hk] at h
        simp [mapHasKey, hk, ih h]

/-! Interleavings of registry operations.  The lock `r_lock` makes each
registration (godet.go lines 141-145) and each reply routing (lines
209-215) a single critical section, so any concurrent execution is some
sequential interleaving of these atomic operations. -/

/-- One atomic registry operation: a registration performed by some call
to `sendRequest`, or the routing of one inbound reply by `readMessages`. -/
inductive RegOp where
  | reg
  | res (id : Nat) (payload : RawMessage)
  deriving Repr, DecidableEq

/-- Apply one registry operation to the connection state. -/
def applyOp (r : RemoteDebugger) : RegOp → RemoteDebugger
  | RegOp.reg => (register r).2
  | RegOp.res id p => resolve r id p

/-- Apply a whole interleaving of registry operations. -/
def applyOps (r : RemoteDebugger) (ops : List RegOp) : RemoteDebugger :=
  ops.foldl applyOp r

/-- The payload of the first inbound reply in the interleaving whose
identifier is `i`, if any. -/
def firstReply (i : Nat) : List RegOp → Option RawMessage
  | [] => none
  | RegOp.reg :: rest => firstReply i rest
  | RegOp.res j p :: rest => if j = i then some p else firstReply i rest

/-- The request identifiers handed out, in order, along an interleaving
of registry operations. -/
def traceIds (r : RemoteDebugger) : List RegOp → List Nat
  | [] => []
  | RegOp.reg :: rest => (register r).1 :: traceIds (register r).2 rest
  | RegOp.res id p :: rest => traceIds (resolve r id p) rest

/-! The call path `sendRequest` (godet.go lines 140-171) up to the
blocking receive. -/

/-- An action performed on the websocket. -/
inductive WsAction where
  | write (payload : String)
  | closeSocket
  deriving Repr, DecidableEq

/-- The JSON envelope `json.Marshal(command)` for the command map built
at godet.go lines 147-153. -/
def encodeEnvelope (id : Nat) (method : String) (params : RawMessage) : String :=
  "\x7b\"id\":" ++ toString id ++ ",\"method\":\"" ++ method ++
    "\",\"params\":" ++ params ++ "\x7d"

/-- What one execution of the pre-wait phase of `sendRequest` produced. -/
structure SendOutcome where
  id : Nat
  state : RemoteDebugger
  wsActions : List WsAction
  writeError : Bool
  deriving Repr, DecidableEq

/-- The pre-wait phase of `sendRequest` (godet.go lines 140-163):
register an id and slot under `r_lock`, marshal the envelope (marshaling
an id/method/params map of plain data succeeds), then write it to the
websocket.  The write outcome `writeFails` is the library boundary.  No
branch consults `remote.closed`.  When the write fails the function
returns the error at line 162 without reaching the receive at line 165;
`writeError` records that early error return. -/
def sendRequestSend (r : RemoteDebugger) (method : String) (params : RawMessage)
    (writeFails : Bool) : SendOutcome :=
  let idr := register r
  { id := idr.1,
    state := idr.2,
    wsActions := [WsAction.write (encodeEnvelope idr.1 method params)],
    writeError := writeFails }

/-! The dispatch loop `readMessages` (godet.go lines 173-221). -/

/-- The opening-brace byte compared at godet.go line 188. -/
def openBrace : Nat := 123

/-- The closing-brace byte compared at godet.go line 188. -/
def closeBrace : Nat := 125

/-- The end-of-message check at godet.go line 188:
`bytes[0] == openBrace && bytes[len(bytes)-1] != closeBrace`.  The two
byte indexings require the buffer to be nonempty. -/
def incompleteCheck (bytes : List Nat) (h : bytes ≠ []) : Bool :=
  decide (bytes.head h = openBrace) && ! decide (bytes.getLast h = closeBrace)

/-- The decoded shape `wsMessage` (godet.go lines 132-138). -/
structure WsMessage where
  id : Nat
  result : RawMessage
  method : String
  params : RawMessage
  deriving Repr, DecidableEq

/-- One `log.Println` call made by the dispatch loop. -/
inductive LogEntry where
  | readError (eof : Bool)
  | unmarshalError (buf : List Nat)
  | event (method : String) (params : RawMessage)
  deriving Repr, DecidableEq

/-- The state carried across dispatch-loop iterations: the shared
connection state, the accumulating byte buffer `bytes`, and the log. -/
structure LoopState where
  remote : RemoteDebugger
  acc : List Nat
  log : List LogEntry
  deriving Repr, DecidableEq

/-- The outcome of one `remote.ws.Read(buf)` (godet.go line 178): a
chunk of `n = data.length` bytes (possibly zero) on success, or an error
that either is or is not `io.EOF`. -/
inductive ReadEvent where
  | chunk (data : List Nat)
  | readErr (eof : Bool)
  deriving Repr, DecidableEq

/-- The unmarshal-and-route block of `readMessages` (godet.go lines
193-218): decode the buffer; on failure log and discard; a message with
a nonempty method is logged as an event; otherwise it is routed as a
reply through the registry.  In every case the buffer is reset to nil
(line 218).  `decode` stands for `json.Unmarshal` into `wsMessage`. -/
def decodeStep (decode : List Nat → Option WsMessage) (s : LoopState)
    (bytes : List Nat) : LoopState :=
  match decode bytes with
  | none =>
      { s with acc := [], log := s.log ++ [LogEntry.unmarshalError bytes] }
  | some message =>
      if message.method ≠ "" then
        { s with acc := [], log := s.log ++ [LogEntry.event message.method message.params] }
      else
        { s with acc := [], remote := resolve s.remote message.id message.result }

theorem append_ne_nil_of_length_pos (acc data : List Nat) (h : 0 < data.length) :
    acc ++ data ≠ [] := by
  intro hcontra
  rcases List.append_eq_nil.mp hcontra with ⟨-, hdata⟩
  simp [hdata] at h

/-- One iteration body of the `for` loop in `readMessages` (godet.go
lines 178-219), given the outcome of the blocking read.  Returns the new
loop state and whether the iteration executed `break`.  A read error is
logged and breaks only when it is `io.EOF`.  On a successful read the
chunk is appended and the end-of-message check runs only when `n > 0`;
if the buffer looks incomplete the iteration `continue`s, otherwise the
buffer is decoded and routed. -/
def readIteration (decode : List Nat → Option WsMessage) (s : LoopState) :
    ReadEvent → LoopState × Bool
  | ReadEvent.readErr eof =>
      ({ s with log := s.log ++ [LogEntry.readError eof] }, eof)
  | ReadEvent.chunk data =>
      if h : 0 < data.length then
        if incompleteCheck (s.acc ++ data) (append_ne_nil_of_length_pos s.acc data h) then
          ({ s with acc := s.acc ++ data }, false)
        else
          (decodeStep decode s (s.acc ++ data), false)
      else
        (decodeStep decode s s.acc, false)

/-- An event seen by the running dispatch loop: either its blocking read
returns, or `Close` runs between iterations and sets the closed flag. -/
inductive LoopEvent where
  | read (ev : ReadEvent)
  | closeConn
  deriving Repr, DecidableEq

/-- Why a run of the dispatch loop stopped. -/
inductive ExitReason where
  | closedFlag
  | eofBreak
  | exhausted
  deriving Repr, DecidableEq

/-- The `for !remote.closed` loop of `readMessages` (godet.go lines
177-220) run over a finite schedule of events.  The closed flag is
checked at the top of every iteration; `exhausted` is the model artifact
for a schedule that ends while the loop is still blocked reading. -/
def runLoop (decode : List Nat → Option WsMessage) :
    LoopState → List LoopEvent → LoopState × ExitReason
  | s, [] => (s, ExitReason.exhausted)
  | s, e :: rest =>
      if s.remote.closed then (s, ExitReason.closedFlag)
      else
        match e with
        | LoopEvent.closeConn =>
            runLoop decode
              { s with remote := closeDebugger s.remote } rest
        | LoopEvent.read ev =>
            match readIteration decode s ev with
            | (s', true) => (s', ExitReason.eofBreak)
            | (s', false) => runLoop decode s' rest

/-- A degenerate decoder for concrete runs: every buffer fails to
decode.  Used only to instantiate the `decode` parameter in closed
statements. -/
def decodeNone : List Nat → Option WsMessage := fun _ => none

/-! Lemmas about the effect of single registry operations. -/

theorem register_fst (r : RemoteDebugger) : (register r).1 = r.reqid := rfl

theorem register_reqid (r : RemoteDebugger) : (register r).2.reqid = r.reqid + 1 := rfl

theorem mapLookup_register_self (r : RemoteDebugger) :
    mapLookup (register r).2.responses r.reqid = some none :=
  mapLookup_mapInsert_self r.responses r.reqid (some none)

theorem mapLookup_register_ne (r : RemoteDebugger) (i : Nat) (h : i ≠ r.reqid) :
    mapLookup (register r).2.responses i = mapLookup r.responses i :=
  mapLookup_mapInsert_ne r.responses r.reqid i (some none) (Ne.symm h)

theorem resolve_reqid (r : RemoteDebugger) (j : Nat) (p : RawMessage) :
    (resolve r j p).reqid = r.reqid := by
  cases hl : mapLookup r.responses j with
  | none => simp [resolve, hl]
  | some c => cases c with
    | none => simp [resolve, hl]
    | some q => simp [resolve, hl]

theorem mapLookup_resolve_ne (r : RemoteDebugger) (j i : Nat) (p : RawMessage)
    (h : j ≠ i) :
    mapLookup (resolve r j p).responses i = mapLookup r.responses i := by
  cases hl : mapLookup r.responses j with
  | none => simp [resolve, hl]
  | some c => cases c with
    | none => simp [resolve, hl, mapLookup_mapInsert_ne r.responses j i _ h]
    | some q => simp [resolve, hl]

theorem resolve_self_empty (r : RemoteDebugger) (i : Nat) (p : RawMessage)
    (h : mapLookup r.responses i = some none) :
    mapLookup (resolve r i p).responses i = some (some p) := by
  simp [resolve, h, mapLookup_mapInsert_self]

theorem resolve_self_full (r : RemoteDebugger) (i : Nat) (p q : RawMessage)
    (h : mapLookup r.responses i = some (some q)) :
    resolve r i p = r := by
  simp [resolve, h]

/-! Lemmas about whole interleavings. -/

theorem applyOps_slot_full (i : Nat) (p : RawMessage) (ops : List RegOp) :
    ∀ r : RemoteDebugger,
      mapLookup r.responses i = some (some p) → i < r.reqid →
      mapLookup (applyOps r ops).responses i = some (some p) ∧
        i < (applyOps r ops).reqid := by
  induction ops with
  | nil => intro r h hi; exact ⟨h, hi⟩
  | cons op ops ih =>
      intro r h hi
      cases op with
      | reg =>
          have e : applyOps r (RegOp.reg :: ops) = applyOps (register r).2 ops := rfl
          rw [e]
          refine ih (register r).2 ?_ ?_
          · rw [mapLookup_register_ne r i (Nat.ne_of_lt hi)]; exact h
          · rw [register_reqid]; omega
      | res j q =>
          have e : applyOps r (RegOp.res j q :: ops) = applyOps (resolve r j q) ops := rfl
          rw [e]
          by_cases hj : j = i
          · subst hj
            rw [resolve_self_full r j q p h]
            exact ih r h hi
          · refine ih (resolve r j q) ?_ ?_
            · rw [mapLookup_resolve_ne r j i q hj]; exact h
            · rw [resolve_reqid]; exact hi

theorem applyOps_firstReply (i : Nat) (ops : List RegOp) :
    ∀ r : RemoteDebugger,
      mapLookup r.responses i = some none → i < r.reqid →
      ((firstReply i ops = none →
          mapLookup (applyOps r ops).responses i = some none) ∧
       (∀ p, firstReply i ops = some p →
          mapLookup (applyOps r ops).responses i = some (some p))) := by
  induction ops with
  | nil =>
      intro r h hi
      refine ⟨fun _ => h, fun p hp => ?_⟩
      simp [firstReply] at hp
  | cons op ops ih =>
      intro r h hi
      cases op with
      | reg =>
          have e : applyOps r (RegOp.reg :: ops) = applyOps (register r).2 ops := rfl
          have e2 : firstReply i (RegOp.reg :: ops) = firstReply i ops := rfl
          rw [e, e2]
          refine ih (register r).2 ?_ ?_
          · rw [mapLookup_register_ne r i (Nat.ne_of_lt hi)]; exact h
          · rw [register_reqid]; omega
      | res j q =>
          have e : applyOps r (RegOp.res j q :: ops) = applyOps (resolve r j q) ops := rfl
          rw [e]
          by_cases hj : j = i
          · subst hj
            have hfull : mapLookup (resolve r j q).responses j = some (some q) :=
              resolve_self_empty r j q h
            have hfr : firstReply j (RegOp.res j q :: ops) = some q := by
              simp [firstReply]
            rw [hfr]
            constructor
            · intro hn; exact absurd hn (by simp)
            · intro p hp
              have hpq : q = p := Option.some.inj hp
              subst hpq
              exact (applyOps_slot_full j q ops (resolve r j q) hfull
                (by rw [resolve_reqid]; exact hi)).1
          · have e2 : firstReply i (RegOp.res j q :: ops) = firstReply i ops := by
              simp [firstReply, hj]
            rw [e2]
            refine ih (resolve r j q) ?_ ?_
            · rw [mapLookup_resolve_ne r j i q hj]; exact h
            · rw [resolve_reqid]; exact hi

theorem traceIds_lower (ops : List RegOp) :
    ∀ (r : RemoteDebugger) (x : Nat), x ∈ traceIds r ops → r.reqid ≤ x := by
  induction ops with
  | nil => intro r x hx; simp [traceIds] at hx
  | cons op ops ih =>
      intro r x hx
      cases op with
      | reg =>
          rw [show traceIds r (RegOp.reg :: ops) =
                (register r).1 :: traceIds (register r).2 ops from rfl] at hx
          rcases List.mem_cons.mp hx with hx | hx
          · rw [hx, register_fst]
          · have hle := ih (register r).2 x hx
            rw [register_reqid] at hle
            omega
      | res j p =>
          rw [show traceIds r (RegOp.res j p :: ops) =
                traceIds (resolve r j p) ops from rfl] at hx
          have hle := ih (resolve r j p) x hx
          rw [resolve_reqid] at hle
          exact hle

theorem traceIds_chain (ops : List RegOp) :
    ∀ r : RemoteDebugger, List.Chain' (· < ·) (traceIds r ops) := by
  induction ops with
  | nil => intro r; simp [traceIds]
  | cons op ops ih =>
      intro r
      cases op with
      | reg =>
          rw [show traceIds r (RegOp.reg :: ops) =
                (register r).1 :: traceIds (register r).2 ops from rfl]
          refine List.chain'_cons'.mpr ⟨?_, ih _⟩
          intro y hy
          have hmem : y ∈ traceIds (register r).2 ops := List.mem_of_mem_head? hy
          have hle := traceIds_lower ops (register r).2 y hmem
          rw [register_reqid] at hle
          rw [register_fst]
          omega
      | res j p =>
          rw [show traceIds r (RegOp.res j p :: ops) =
                traceIds (resolve r j p) ops from rfl]
          exact ih _

/-- Modelled from the spec: the framing policy exactly as C2 words it --
the accumulated buffer is one complete message exactly when its first
byte is an opening brace and its last byte is a closing brace. -/
def specCompleteMessage (bytes : List Nat) : Bool :=
  match bytes.head?, bytes.getLast? with
  | some b0, some bn => decide (b0 = openBrace) && decide (bn = closeBrace)
  | _, _ => false

/-- C1: starting from any connection state, a call registered with
identifier `(register r0).1` receives, through its delivery slot,
exactly the payload of the first inbound reply bearing that identifier,
for every interleaving of further registrations and reply deliveries
(any arrival order); as long as no reply bears that identifier the slot
stays empty and the caller stays blocked -- a reply with a different
identifier never resolves it. -/
theorem c1_call_reply_correlation (r0 : RemoteDebugger) (ops : List RegOp) :
    (firstReply (register r0).1 ops = none →
        consume (applyOps (register r0).2 ops) (register r0).1 = none) ∧
    (∀ p, firstReply (register r0).1 ops = some p →
        (consume (applyOps (register r0).2 ops) (register r0).1).map Prod.fst =
          some p) := by
  have hslot : mapLookup (register r0).2.responses (register r0).1 = some none :=
    mapLookup_register_self r0
  have hi : (register r0).1 < (register r0).2.reqid := by
    rw [register_fst, register_reqid]; omega
  obtain ⟨hnone, hsome⟩ :=
    applyOps_firstReply (register r0).1 ops (register r0).2 hslot hi
  constructor
  · intro hn
    have hl := hnone hn
    simp [consume, hl]
  · intro p hp
    have hl := hsome p hp
    simp [consume, hl]

/-- C1 witness: two calls are pending (ids 0 and 1); replies arrive out
of order with extra unknown and duplicate identifiers, yet call 1
receives exactly the payload of the first reply with id 1. -/
theorem c1_witness :
    firstReply 1 [RegOp.res 0 "x", RegOp.res 2 "z", RegOp.res 1 "y", RegOp.res 1 "d"] =
      some "y" ∧
    (consume (applyOps (register (applyOps connectState [RegOp.reg])).2
        [RegOp.res 0 "x", RegOp.res 2 "z", RegOp.res 1 "y", RegOp.res 1 "d"]) 1).map
        Prod.fst = some "y" :=
  ⟨by decide,
   (c1_call_reply_correlation (applyOps connectState [RegOp.reg])
      [RegOp.res 0 "x", RegOp.res 2 "z", RegOp.res 1 "y", RegOp.res 1 "d"]).2 "y"
      (by decide)⟩

/-- C2 counterexample: the buffer `[120]` (the byte `x`) is not a
complete message by the claimed policy (first byte is not an opening
brace), so per C2 the loop should keep appending; the code instead
attempts to decode it at once (the unmarshal failure is logged and the
buffer is discarded rather than kept). -/
theorem c2_counterexample :
    specCompleteMessage [120] = false ∧
    readIteration decodeNone { remote := connectState, acc := [], log := [] }
        (ReadEvent.chunk [120]) =
      ({ remote := connectState, acc := [],
         log := [LogEntry.unmarshalError [120]] }, false) := by
  decide

/-- C2 amended: on a read of `n > 0` bytes the loop keeps accumulating
exactly when the buffer's first byte is an opening brace and its last
byte is not a closing brace; in every other case -- including a buffer
that does not start with an opening brace -- it attempts to decode the
buffer. -/
theorem c2_first_last_framing (decode : List Nat → Option WsMessage)
    (s : LoopState) (data : List Nat) (h : 0 < data.length) :
    (incompleteCheck (s.acc ++ data) (append_ne_nil_of_length_pos s.acc data h) =
        true ↔
      (s.acc ++ data).head (append_ne_nil_of_length_pos s.acc data h) = openBrace ∧
      (s.acc ++ data).getLast (append_ne_nil_of_length_pos s.acc data h) ≠
        closeBrace) ∧
    (incompleteCheck (s.acc ++ data) (append_ne_nil_of_length_pos s.acc data h) =
        true →
      readIteration decode s (ReadEvent.chunk data) =
        ({ s with acc := s.acc ++ data }, false)) ∧
    (incompleteCheck (s.acc ++ data) (append_ne_nil_of_length_pos s.acc data h) =
        false →
      readIteration decode s (ReadEvent.chunk data) =
        (decodeStep decode s (s.acc ++ data), false)) := by
  refine ⟨?_, fun hc => ?_, fun hc => ?_⟩
  · simp [incompleteCheck]
  · simp [readIteration, h, hc]
  · simp [readIteration, h, hc]

/-- C2 witness: the fragment starting with an opening brace and not yet
ending with a closing brace is kept and accumulated. -/
theorem c2_witness :
    (0 : Nat) < [123, 97].length ∧
    readIteration decodeNone { remote := connectState, acc := [], log := [] }
        (ReadEvent.chunk [123, 97]) =
      ({ remote := connectState, acc := [123, 97], log := [] }, false) :=
  ⟨by decide,
   (c2_first_last_framing decodeNone { remote := connectState, acc := [], log := [] }
      [123, 97] (by decide)).2.1 (by decide)⟩

/-- C3 counterexample: after a read error that is not end-of-stream the
loop does not exit -- it logs the error and goes on to process the next
read (both log entries appear and the schedule is consumed to the end),
contradicting the claim that such an error is fatal for the loop. -/
theorem c3_counterexample :
    runLoop decodeNone { remote := connectState, acc := [], log := [] }
        [LoopEvent.read (ReadEvent.readErr false),
         LoopEvent.read (ReadEvent.chunk [120])] =
      ({ remote := connectState, acc := [],
         log := [LogEntry.readError false, LogEntry.unmarshalError [120]] },
       ExitReason.exhausted) := by
  decide

/-- C3 amended: the dispatch loop terminates when the closed flag is
true at an iteration check or when a read reports end-of-stream; every
other read error is logged and the loop continues with the next
iteration. -/
theorem c3_loop_termination (decode : List Nat → Option WsMessage) (s : LoopState)
    (e : LoopEvent) (rest : List LoopEvent) :
    (s.remote.closed = true →
        runLoop decode s (e :: rest) = (s, ExitReason.closedFlag)) ∧
    (s.remote.closed = false →
        runLoop decode s (LoopEvent.read (ReadEvent.readErr true) :: rest) =
          ({ s with log := s.log ++ [LogEntry.readError true] },
           ExitReason.eofBreak)) ∧
    (s.remote.closed = false →
        runLoop decode s (LoopEvent.read (ReadEvent.readErr false) :: rest) =
          runLoop decode { s with log := s.log ++ [LogEntry.readError false] }
            rest) := by
  refine ⟨fun hc => ?_, fun hc => ?_, fun hc => ?_⟩
  · simp [runLoop, hc]
  · simp [runLoop, hc, readIteration]
  · simp [runLoop, hc, readIteration]

/-- C3 witness: a closed connection stops the loop at the iteration
check, and an end-of-stream read error breaks out of the loop. -/
theorem c3_witness :
    ((closeDebugger connectState).closed = true ∧
      runLoop decodeNone
          { remote := closeDebugger connectState, acc := [], log := [] }
          [LoopEvent.read (ReadEvent.chunk [120])] =
        ({ remote := closeDebugger connectState, acc := [], log := [] },
         ExitReason.closedFlag)) ∧
    (connectState.closed = false ∧
      runLoop decodeNone { remote := connectState, acc := [], log := [] }
          [LoopEvent.read (ReadEvent.readErr true)] =
        ({ remote := connectState, acc := [], log := [LogEntry.readError true] },
         ExitReason.eofBreak)) :=
  ⟨⟨by decide,
    (c3_loop_termination decodeNone
        { remote := closeDebugger connectState, acc := [], log := [] }
        (LoopEvent.read (ReadEvent.chunk [120])) []).1 (by decide)⟩,
   ⟨by decide,
    (c3_loop_termination decodeNone { remote := connectState, acc := [], log := [] }
        (LoopEvent.read (ReadEvent.readErr true)) []).2.1 (by decide)⟩⟩

/-- C4 counterexample: with the closed flag set, a subsequent call still
attempts the stream write -- the call path never consults the flag --
contradicting the claim that no further write is attempted after close. -/
theorem c4_counterexample :
    (closeDebugger connectState).closed = true ∧
    (sendRequestSend (closeDebugger connectState) "Page.navigate"
        "\x7b\"url\":\"http://x\"\x7d" false).wsActions =
      [WsAction.write
        (encodeEnvelope 0 "Page.navigate" "\x7b\"url\":\"http://x\"\x7d")] ∧
    (sendRequestSend (closeDebugger connectState) "Page.navigate"
        "\x7b\"url\":\"http://x\"\x7d" false).wsActions ≠ [] :=
  ⟨rfl, rfl, by decide⟩

/-- C4 amended: after close the dispatch loop exits at its next
iteration check, but a subsequent call operation still attempts exactly
one stream write of its envelope (the closed flag is not consulted by
the call path; the write on the closed stream then fails at the library
boundary and fails only that call). -/
theorem c4_closed_connection (r : RemoteDebugger) (method : String)
    (params : RawMessage) (writeFails : Bool)
    (decode : List Nat → Option WsMessage) (s : LoopState) (e : LoopEvent)
    (rest : List LoopEvent) :
    (closeDebugger r).closed = true ∧
    (sendRequestSend (closeDebugger r) method params writeFails).wsActions =
      [WsAction.write (encodeEnvelope r.reqid method params)] ∧
    (s.remote.closed = true →
        runLoop decode s (e :: rest) = (s, ExitReason.closedFlag)) := by
  refine ⟨rfl, rfl, fun hc => ?_⟩
  simp [runLoop, hc]

/-- C4 witness: on a concrete closed connection the loop exits with the
closed-flag reason. -/
theorem c4_witness :
    ({ remote := closeDebugger connectState, acc := [], log := [] } :
        LoopState).remote.closed = true ∧
    runLoop decodeNone { remote := closeDebugger connectState, acc := [], log := [] }
        [LoopEvent.closeConn] =
      ({ remote := closeDebugger connectState, acc := [], log := [] },
       ExitReason.closedFlag) :=
  ⟨by decide,
   (c4_closed_connection connectState "m" "p" false decodeNone
      { remote := closeDebugger connectState, acc := [], log := [] }
      LoopEvent.closeConn []).2.2 (by decide)⟩

/-- C5: identifier allocation takes the current counter value and
increments the counter in one atomic registration step, and along any
interleaving of registrations and reply deliveries the identifiers
handed out are strictly increasing and never repeat. -/
theorem c5_id_allocation (r : RemoteDebugger) (ops : List RegOp) :
    (register r).1 = r.reqid ∧ (register r).2.reqid = r.reqid + 1 ∧
    List.Chain' (· < ·) (traceIds r ops) ∧ (traceIds r ops).Nodup := by
  refine ⟨rfl, rfl, traceIds_chain ops r, ?_⟩
  have hp : List.Pairwise (· < ·) (traceIds r ops) :=
    List.chain'_iff_pairwise.mp (traceIds_chain ops r)
  exact hp.imp Nat.ne_of_lt

/-- C6 counterexample: after the reply for id 0 is delivered and
consumed, the key 0 is still present in the responses map (the entry is
assigned nil, not deleted), refuting that the entry is removed from the
registry; only the live slot is gone. -/
theorem c6_counterexample :
    (consume (applyOps connectState [RegOp.reg, RegOp.res 0 "r"]) 0).map
        (fun pr => (pr.1, mapHasKey pr.2.responses 0, mapLookup pr.2.responses 0)) =
      some ("r", true, none) := by
  decide

/-- C6 amended: once a call's result payload has arrived and is
consumed, the entry for that identifier is set to a nil channel, so the
identifier no longer maps to a live delivery slot; the key itself
remains in the map (the entry is nilled, not deleted). -/
theorem c6_entry_nilled (r : RemoteDebugger) (i : Nat) (p : RawMessage)
    (h : mapLookup r.responses i = some (some p)) :
    ∃ r' : RemoteDebugger, consume r i = some (p, r') ∧
      mapLookup r'.responses i = none ∧ mapHasKey r'.responses i = true := by
  refine ⟨{ r with responses := mapInsert r.responses i none }, ?_, ?_, ?_⟩
  · simp [consume, h]
  · exact mapLookup_mapInsert_self r.responses i none
  · exact mapHasKey_mapInsert_self r.responses i none

/-- C6 witness: the delivered payload for id 0 is consumed, after which
id 0 has no live slot but its key is still present. -/
theorem c6_witness :
    mapLookup (applyOps connectState [RegOp.reg, RegOp.res 0 "r"]).responses 0 =
      some (some "r") ∧
    ∃ r', consume (applyOps connectState [RegOp.reg, RegOp.res 0 "r"]) 0 =
        some ("r", r') ∧
      mapLookup r'.responses 0 = none ∧ mapHasKey r'.responses 0 = true :=
  ⟨by decide,
   c6_entry_nilled (applyOps connectState [RegOp.reg, RegOp.res 0 "r"]) 0 "r"
     (by decide)⟩

/-- C7: when the stream write of a call's envelope fails, the call
returns with the write error (before ever reaching the blocking
receive), the registry entry created for its identifier is left in
place as a live empty slot, and the entry of every other identifier is
exactly as before the call. -/
theorem c7_write_failure (r : RemoteDebugger) (method : String)
    (params : RawMessage) :
    (sendRequestSend r method params true).writeError = true ∧
    mapLookup (sendRequestSend r method params true).state.responses
        (sendRequestSend r method params true).id = some none ∧
    ∀ j, j ≠ (sendRequestSend r method params true).id →
      mapLookup (sendRequestSend r method params true).state.responses j =
        mapLookup r.responses j := by
  refine ⟨rfl, mapLookup_mapInsert_self r.responses r.reqid (some none),
    fun j hj => ?_⟩
  exact mapLookup_mapInsert_ne r.responses r.reqid j (some none) (Ne.symm hj)

/-- C7 witness: a failed write on a fresh connection leaves the new
entry for id 0 in place and leaves an unrelated id 5 untouched. -/
theorem c7_witness :
    (5 : Nat) ≠ (sendRequestSend connectState "Page.navigate" "p" true).id ∧
    (sendRequestSend connectState "Page.navigate" "p" true).writeError = true ∧
    mapLookup (sendRequestSend connectState "Page.navigate" "p" true).state.responses
        (sendRequestSend connectState "Page.navigate" "p" true).id = some none ∧
    mapLookup (sendRequestSend connectState "Page.navigate" "p" true).state.responses
        5 = mapLookup connectState.responses 5 :=
  ⟨by decide,
   (c7_write_failure connectState "Page.navigate" "p").1,
   (c7_write_failure connectState "Page.navigate" "p").2.1,
   (c7_write_failure connectState "Page.navigate" "p").2.2 5 (by decide)⟩

/-- C8: a decoded reply whose identifier has no pending entry (absent
key, or an entry already consumed and nilled) is silently dropped: the
routing step has no error outcome and returns the connection state
completely unchanged, so no slot receives the payload and every other
pending call's slot is untouched. -/
theorem c8_unknown_reply_dropped (r : RemoteDebugger) (id : Nat) (p : RawMessage)
    (h : mapLookup r.responses id = none) : resolve r id p = r := by
  simp [resolve, h]

/-- C8 witness: a reply with id 7 while only id 0 is pending leaves the
state exactly as it was. -/
theorem c8_witness :
    mapLookup (applyOps connectState [RegOp.reg]).responses 7 = none ∧
    resolve (applyOps connectState [RegOp.reg]) 7 "x" =
      applyOps connectState [RegOp.reg] :=
  ⟨by decide, c8_unknown_reply_dropped (applyOps connectState [RegOp.reg]) 7 "x"
    (by decide)⟩

/-- C9: when a complete framed unit fails to decode, the iteration logs
the failure, discards the unit (the buffer is reset), does not break,
leaves the connection state untouched, and the loop goes on to process
the rest of its schedule. -/
theorem c9_decode_failure_nonfatal (decode : List Nat → Option WsMessage)
    (s : LoopState) (data : List Nat) (rest : List LoopEvent)
    (hpos : 0 < data.length)
    (hcheck : incompleteCheck (s.acc ++ data)
        (append_ne_nil_of_length_pos s.acc data hpos) = false)
    (hdec : decode (s.acc ++ data) = none)
    (hclosed : s.remote.closed = false) :
    readIteration decode s (ReadEvent.chunk data) =
      ({ s with acc := [], log := s.log ++ [LogEntry.unmarshalError (s.acc ++ data)] }, false) ∧
    runLoop decode s (LoopEvent.read (ReadEvent.chunk data) :: rest) =
      runLoop decode
        { s with acc := [], log := s.log ++ [LogEntry.unmarshalError (s.acc ++ data)] } rest := by
  have hit : readIteration decode s (ReadEvent.chunk data) =
      (decodeStep decode s (s.acc ++ data), false) := by
    simp [readIteration, hpos, hcheck]
  have hds : decodeStep decode s (s.acc ++ data) =
      { s with acc := [], log := s.log ++ [LogEntry.unmarshalError (s.acc ++ data)] } := by
    simp [decodeStep, hdec]
  refine ⟨by rw [hit, hds], ?_⟩
  simp [runLoop, hclosed, hit, hds]

/-- C9 witness: the undecodable unit `[120]` is logged and discarded and
the loop then still reacts to the following end-of-stream error. -/
theorem c9_witness :
    incompleteCheck ([] ++ [120])
        (append_ne_nil_of_length_pos [] [120] (by decide)) = false ∧
    readIteration decodeNone { remote := connectState, acc := [], log := [] }
        (ReadEvent.chunk [120]) =
      ({ remote := connectState, acc := [],
         log := [LogEntry.unmarshalError ([] ++ [120])] }, false) :=
  ⟨by decide,
   (c9_decode_failure_nonfatal decodeNone
      { remote := connectState, acc := [], log := [] } [120] [] (by decide)
      (by decide) (by decide) (by decide)).1⟩

/-- C10: a successful read of zero bytes skips the completeness check
and immediately decodes the currently accumulated buffer (a mere
fragment is then discarded on decode failure), and the completeness
check is only ever evaluated on a nonempty buffer, so its first/last
byte indexing never reads out of range. -/
theorem c10_zero_read_decodes (decode : List Nat → Option WsMessage)
    (s : LoopState) (data : List Nat) :
    readIteration decode s (ReadEvent.chunk []) =
      (decodeStep decode s s.acc, false) ∧
    (decode s.acc = none →
        readIteration decode s (ReadEvent.chunk []) =
          ({ s with acc := [], log := s.log ++ [LogEntry.unmarshalError s.acc] }, false)) ∧
    (0 < data.length → s.acc ++ data ≠ []) := by
  refine ⟨by simp [readIteration], fun hdec => ?_,
    fun hp => append_ne_nil_of_length_pos s.acc data hp⟩
  simp [readIteration, decodeStep, hdec]

/-- C10 witness: with the fragment `[123]` accumulated, a zero-byte read
decodes it at once (and the failure discards it), and a nonempty chunk
always yields a nonempty buffer for the check. -/
theorem c10_witness :
    decodeNone [123] = none ∧
    readIteration decodeNone { remote := connectState, acc := [123], log := [] }
        (ReadEvent.chunk []) =
      ({ remote := connectState, acc := [],
         log := [LogEntry.unmarshalError [123]] }, false) ∧
    ([123] : List Nat) ++ [125] ≠ [] :=
  ⟨by decide,
   (c10_zero_read_decodes decodeNone
      { remote := connectState, acc := [123], log := [] } []).2.1 (by decide),
   (c10_zero_read_decodes decodeNone
      { remote := connectState, acc := [123], log := [] } [125]).2.2 (by decide)⟩

end Godet
